import Mathlib

set_option maxRecDepth 8000

namespace RbhFind

/-!  Shallow embedding of the rbh-find query compiler: the filter data model
(`struct rbh_filter`), the predicate compilers of filters.c, the glob-to-regex
translator of utils.c, and the recursive-descent expression parser of
rbh-find.c.  Machine integers are modelled as `Nat`/`Int`; the process-scoped
arena is irrelevant to the values computed and is not modelled.  -/

/-- Comparison operators of the robinhood filter API used by rbh-find
(the `RBH_FOP_*` constants appearing in the source). -/
inductive FOp where
  | equal
  | strictlyGreater
  | strictlyLower
  | bitsAllSet
  | bitsAnySet
  | regex
deriving DecidableEq

/-- Entry fields a comparison leaf can target (the `predicate2filter_field`
table of filters.c maps predicates to statx/name fields). -/
inductive FField where
  | atime
  | mtime
  | ctime
  | name
  | ftype
  | mode
deriving DecidableEq

/-- Value carried by a comparison leaf: a signed integer (`rbh_filter_compare_uint64_new`
and `rbh_filter_compare_int32_new` calls), a 32-bit mode (`rbh_filter_compare_uint32_new`),
or a regex source string with its case-insensitivity option. -/
inductive FValue where
  | int (i : Int)
  | u32 (n : Nat)
  | regex (pattern : List Char) (caseInsensitive : Bool)
deriving DecidableEq

/-- A comparison leaf of `struct rbh_filter`. -/
structure Comp where
  op : FOp
  field : FField
  value : FValue
deriving DecidableEq

/-- The type `struct rbh_filter *`, shallowly embedded.  `null` is the NULL pointer:
parse_expression starts with `filter = NULL` and filter_and/filter_or build
composite nodes whose children may be NULL. -/
inductive Filter where
  | null
  | comp (c : Comp)
  | and2 (l r : Filter)
  | or2 (l r : Filter)
  | not1 (f : Filter)
deriving DecidableEq

/-- filter_and from filters.c (`filter_compose(RBH_FOP_AND, left, right)`). -/
def filter_and (l r : Filter) : Filter := Filter.and2 l r

/-- filter_or from filters.c (`filter_compose(RBH_FOP_OR, left, right)`). -/
def filter_or (l r : Filter) : Filter := Filter.or2 l r

/-- filter_not from filters.c: wraps a filter in a NOT node. -/
def filter_not (f : Filter) : Filter := Filter.not1 f

/-- Fatal-exit channels of the program: `error(EX_USAGE, ...)` exits with the
usage status 64, `error(EXIT_FAILURE, ...)` with the general failure status 1.
`fuel` is a model artifact marking exhaustion of the recursion bound; it cannot
occur when the bound exceeds the total number of parse steps. -/
inductive Err where
  | usage
  | failure
  | fuel
deriving DecidableEq

deriving instance DecidableEq for Except

/-- Exit status of each fatal-exit channel (sysexits.h EX_USAGE = 64,
stdlib.h EXIT_FAILURE = 1). -/
def Err.exitCode : Err → Nat
  | .usage => 64
  | .failure => 1
  | .fuel => 2

/-- The predicates of parser.h whose compilers are present in the source. -/
inductive Pred where
  | amin
  | atime
  | cmin
  | ctime
  | mmin
  | mtime
  | name
  | iname
  | ftype
  | perm
deriving DecidableEq

/-- The `predicate2filter_field` table of filters.c. -/
def predicate2filter_field : Pred → FField
  | .amin => .atime
  | .atime => .atime
  | .cmin => .ctime
  | .ctime => .ctime
  | .mmin => .mtime
  | .mtime => .mtime
  | .name => .name
  | .iname => .name
  | .ftype => .ftype
  | .perm => .mode

/-- Time units of utils.h; `TIME_UNIT2SECONDS` gives each unit's length. -/
inductive TimeUnit where
  | day
  | hour
  | minute
  | second
deriving DecidableEq

/-- The TIME_UNIT2SECONDS table used by str2seconds and timedelta2filter. -/
def TIME_UNIT2SECONDS : TimeUnit → Nat
  | .day => 86400
  | .hour => 3600
  | .minute => 60
  | .second => 1

/-- ULONG_MAX on the 64-bit targets the program runs on. -/
def ULONG_MAX : Nat := 2 ^ 64 - 1

/-- Numeric value of a list of decimal digit characters, most significant first. -/
def digitsVal (s : List Char) : Nat :=
  s.foldl (fun acc c => acc * 10 + (c.toNat - 48)) 0

/-- strtoul(nptr, &endptr, 10) restricted to the digit-string arguments the
predicates receive: the value of the maximal decimal-digit prefix together
with the remaining characters (the `endptr` position). -/
def strtoul10 (s : List Char) : Nat × List Char :=
  (digitsVal (s.takeWhile Char.isDigit), s.dropWhile Char.isDigit)

/-- str2seconds from src/src/utils.c: converts a number of `unit`s to seconds.
`none` models the errno-reported failures its caller treats as fatal: a value
out of unsigned-long range (ERANGE), trailing non-digit characters (EINVAL),
and overflow of the multiplication by the unit length (ERANGE). -/
def str2seconds (unit : TimeUnit) (s : List Char) : Option Nat :=
  let p := strtoul10 s
  if ULONG_MAX < p.1 then none
  else if p.2 ≠ [] then none
  else if ULONG_MAX / TIME_UNIT2SECONDS unit < p.1 then none
  else some (p.1 * TIME_UNIT2SECONDS unit)

/-- The regex metacharacters shell2pcre escapes with a backslash:
`.`, `|`, `+`, `(`, `)` and the two curly braces (character codes 123, 125). -/
def isSpecialRe (c : Char) : Bool :=
  c = '.' || c = '|' || c = '+' || c = '(' || c = ')' ||
    c.toNat = 123 || c.toNat = 125

/-- The writing pass of shell2pcre from src/src/utils.c, expressed with the
window `pend` of characters copied verbatim on the next flush (the source keeps
the window as the index pair `j..i` into the input instead).  `esc` is the
`escaped` flag toggled by backslashes. -/
def shell2pcreCore : List Char → Bool → List Char → List Char
  | [], _, pend => pend
  | c :: rest, esc, pend =>
    if c = '\\' then
      shell2pcreCore rest (!esc) (pend ++ [c])
    else if c = '*' then
      if esc then shell2pcreCore rest false (pend ++ [c])
      else pend ++ ['.'] ++ shell2pcreCore rest false [c]
    else if c = '?' then
      if esc then shell2pcreCore rest false (pend ++ [c])
      else pend ++ ['.'] ++ shell2pcreCore rest false []
    else if isSpecialRe c then
      if esc then shell2pcreCore rest false (pend ++ [c])
      else pend ++ ['\\'] ++ shell2pcreCore rest false [c]
    else if c = '[' ∨ c = ']' then
      shell2pcreCore rest false (pend ++ [c])
    else
      if esc then pend.dropLast ++ shell2pcreCore rest false [c]
      else shell2pcreCore rest false (pend ++ [c])

/-- The fixed suffix `(?!\n)$` appended by shell2pcre: a lookahead preventing a
match just before a trailing newline, followed by the end anchor. -/
def pcreSuffix : List Char := ['(', '?', '!', '\n', ')', '$']

/-- shell2pcre from src/src/utils.c: translates a shell glob into a PCRE source
string, anchored with `^` at the start and `(?!\n)$` at the end. -/
def shell2pcre (shell : List Char) : List Char :=
  '^' :: shell2pcreCore shell false [] ++ pcreSuffix

/-- shell_regex2filter from filters.c: translates the glob and builds a
`RBH_FOP_REGEX` comparison on the predicate's field (always succeeds on the
Lean side; the C function can only fail on allocation). -/
def shell_regex2filter (p : Pred) (shellRegex : List Char) (caseInsensitive : Bool) :
    Filter :=
  Filter.comp ⟨.regex, predicate2filter_field p, .regex (shell2pcre shellRegex) caseInsensitive⟩

/-- filter_uint64_range_new from filters.c: strictly-greater-than `start` AND
strictly-lower-than `endv` on `field`. -/
def filter_uint64_range_new (field : FField) (start endv : Int) : Filter :=
  filter_and (Filter.comp ⟨.strictlyGreater, field, .int start⟩)
    (Filter.comp ⟨.strictlyLower, field, .int endv⟩)

/-- timedelta2filter from filters.c.  `now` stands for the `time(NULL)` call.
A leading `-` compiles to strictly-greater-than `now - delta`, a leading `+`
to strictly-lower-than `now - delta`, and no sign to the range
`(now - delta - unit, now - delta)` via filter_uint64_range_new.  `.failure`
models the `error(EXIT_FAILURE, ...)` exit on an invalid numeric argument. -/
def timedelta2filter (now : Int) (p : Pred) (unit : TimeUnit) (timedelta : List Char) :
    Except Err Filter :=
  let field := predicate2filter_field p
  let stripped :=
    if timedelta.head? = some '-' ∨ timedelta.head? = some '+' then timedelta.tail
    else timedelta
  match str2seconds unit stripped with
  | none => .error .failure
  | some delta =>
    if timedelta.head? = some '-' then
      .ok (Filter.comp ⟨.strictlyGreater, field, .int (now - delta)⟩)
    else if timedelta.head? = some '+' then
      .ok (Filter.comp ⟨.strictlyLower, field, .int (now - delta)⟩)
    else
      .ok (filter_uint64_range_new field (now - delta - TIME_UNIT2SECONDS unit)
        (now - delta))

/-- xmin2filter from filters.c: a timedelta filter at minute granularity. -/
def xmin2filter (now : Int) (p : Pred) (minutes : List Char) : Except Err Filter :=
  timedelta2filter now p .minute minutes

/-- xtime2filter from filters.c: a timedelta filter at day granularity. -/
def xtime2filter (now : Int) (p : Pred) (days : List Char) : Except Err Filter :=
  timedelta2filter now p .day days

/-- filetype2filter from filters.c: one-letter file type to an equality
comparison against the matching `S_IF*` constant; anything else is a usage
error. -/
def filetype2filter (filetype : List Char) : Except Err Filter :=
  match filetype with
  | [c] =>
    if c = 'b' then .ok (Filter.comp ⟨.equal, predicate2filter_field .ftype, .int 0o60000⟩)
    else if c = 'c' then .ok (Filter.comp ⟨.equal, predicate2filter_field .ftype, .int 0o20000⟩)
    else if c = 'd' then .ok (Filter.comp ⟨.equal, predicate2filter_field .ftype, .int 0o40000⟩)
    else if c = 'f' then .ok (Filter.comp ⟨.equal, predicate2filter_field .ftype, .int 0o100000⟩)
    else if c = 'l' then .ok (Filter.comp ⟨.equal, predicate2filter_field .ftype, .int 0o120000⟩)
    else if c = 'p' then .ok (Filter.comp ⟨.equal, predicate2filter_field .ftype, .int 0o10000⟩)
    else if c = 's' then .ok (Filter.comp ⟨.equal, predicate2filter_field .ftype, .int 0o140000⟩)
    else .error .usage
  | _ => .error .usage

/-- The `who` scanning loop opening parse_symbolic in filters.c: consumes the
leading `u`/`g`/`o`/`a` letters and reports which classes were addressed
(`a` addresses all three and sets the dedicated `all` flag). -/
def parseSymbolicWho : List Char → Bool × Bool × Bool × Bool × List Char
  | 'u' :: rest =>
    let r := parseSymbolicWho rest
    (true, r.2.1, r.2.2.1, r.2.2.2.1, r.2.2.2.2)
  | 'g' :: rest =>
    let r := parseSymbolicWho rest
    (r.1, true, r.2.2.1, r.2.2.2.1, r.2.2.2.2)
  | 'o' :: rest =>
    let r := parseSymbolicWho rest
    (r.1, r.2.1, true, r.2.2.2.1, r.2.2.2.2)
  | 'a' :: rest =>
    let r := parseSymbolicWho rest
    (true, true, true, true, r.2.2.2.2)
  | input => (false, false, false, false, input)

/-- One iteration of the perm-letter loop of parse_symbolic in filters.c:
the permission bits contributed by one `r`/`w`/`x`/`X`/`s`/`t` character, given
the addressed classes, the `all` flag, the umask (`usermask`, consulted when no
class was addressed) and the mode accumulated so far.  `none` means the
character is not a perm letter and ends the loop.  The C `0444 & ~usermask`
is modelled as `0o444 &&& (0o7777 ^^^ usermask)` since `usermask` is pre-masked
to 12 bits. -/
def symPermChar (user group other all : Bool) (usermask mode : Nat) (c : Char) :
    Option Nat :=
  let who := user || group || other
  if c = 'r' then
    some ((if user then 0o400 else 0) ||| (if group then 0o40 else 0) |||
      (if other then 0o4 else 0) |||
      (if who then 0 else 0o444 &&& (0o7777 ^^^ usermask)))
  else if c = 'w' then
    some ((if user then 0o200 else 0) ||| (if group then 0o20 else 0) |||
      (if other then 0o2 else 0) |||
      (if who then 0 else 0o222 &&& (0o7777 ^^^ usermask)))
  else if c = 'x' then
    some ((if user then 0o100 else 0) ||| (if group then 0o10 else 0) |||
      (if other then 0o1 else 0) |||
      (if who then 0 else 0o111 &&& (0o7777 ^^^ usermask)))
  else if c = 'X' then
    if mode &&& 0o111 ≠ 0 then
      some ((if user then 0o100 else 0) ||| (if group then 0o10 else 0) |||
        (if other then 0o1 else 0))
    else
      some 0
  else if c = 's' then
    if other ∧ ¬group ∧ ¬user then some 0
    else some ((if user then 0o4000 else 0) ||| (if group then 0o2000 else 0))
  else if c = 't' then
    some (if !who || all then 0o1000 else 0)
  else
    none

/-- The perm-letter loop of parse_symbolic: accumulates contributions of
consecutive perm letters into `perm` and stops at the first other character. -/
def symPermLoop (user group other all : Bool) (usermask mode : Nat) :
    List Char → Nat → Nat × List Char
  | [], perm => (perm, [])
  | c :: rest, perm =>
    match symPermChar user group other all usermask mode c with
    | none => (perm, c :: rest)
    | some add => symPermLoop user group other all usermask mode rest (perm ||| add)

/-- The copy-source branch of parse_symbolic (`u`/`g`/`o` right of the
operator): copies the existing bits of that class into the addressed classes.
Returns the `previous_flags` value and the copied permission bits. -/
def symCopyPerm (user group other : Bool) (mode : Nat) (c : Char) :
    Option (Nat × Nat) :=
  if c = 'u' then
    let pf := mode &&& 0o700
    some (pf, (if user then pf else 0) ||| (if group then pf >>> 3 else 0) |||
      (if other then pf >>> 6 else 0))
  else if c = 'g' then
    let pf := mode &&& 0o70
    some (pf, (if user then pf <<< 3 else 0) ||| (if group then pf else 0) |||
      (if other then pf >>> 3 else 0))
  else if c = 'o' then
    let pf := mode &&& 0o7
    some (pf, (if user then pf <<< 6 else 0) ||| (if group then pf <<< 3 else 0) |||
      (if other then pf else 0))
  else
    none

/-- The final operator application of parse_symbolic: `-` removes the bits
(`*mode &= ~perm`, modelled within 32 bits), `+` adds them, `=` replaces the
mode unless `perm` is zero. -/
def symApplyOp (opc : Char) (mode perm : Nat) : Nat :=
  if opc = '-' then mode &&& (0xFFFFFFFF ^^^ perm)
  else if opc = '+' then mode ||| perm
  else if perm ≠ 0 then perm
  else mode

/-- parse_symbolic from filters.c: parses one symbolic clause
`<who>*<op><perm>*` against the running mode.  `um` stands for the process
umask read by `umask(0022); umask(...)` when no class is addressed.  Returns
the updated mode and the unconsumed suffix (`*end`), or `none` for the `-1`
error returns (missing operator, or a copy-source letter followed by trailing
characters other than `,`). -/
def parse_symbolic (um : Nat) (input : List Char) (mode : Nat) :
    Option (Nat × List Char) :=
  let w := parseSymbolicWho input
  let user := w.1
  let group := w.2.1
  let other := w.2.2.1
  let all := w.2.2.2.1
  let rest1 := w.2.2.2.2
  let who := user || group || other
  let usermask := if who then 0 else um &&& 0o7777
  match rest1 with
  | [] => none
  | opc :: rest2 =>
    if opc = '-' ∨ opc = '+' ∨ opc = '=' then
      let step : Nat × Nat × List Char :=
        match rest2 with
        | [] => (0, 0, [])
        | c :: r =>
          match symCopyPerm user group other mode c with
          | some pf => (pf.1, pf.2, r)
          | none =>
            let lp := symPermLoop user group other all usermask mode (c :: r) 0
            (0, lp.1, lp.2)
      let previousFlags := step.1
      let perm := step.2.1
      let rest3 := step.2.2
      if previousFlags ≠ 0 ∧ rest3 ≠ [] ∧ rest3.head? ≠ some ',' then none
      else some (symApplyOp opc mode perm, rest3)
    else none

/-- The comma-separated symbolic-clause loop of str2mode, with an explicit
recursion bound (each clause consumes at least its operator character, so the
input length plus one always suffices). -/
def str2modeSym (um : Nat) : Nat → List Char → Nat → Option Nat
  | 0, _, _ => none
  | fuelN + 1, input, mode =>
    match parse_symbolic um input mode with
    | none => none
    | some r =>
      match r.2 with
      | ',' :: rest => str2modeSym um fuelN rest r.1
      | [] => some r.1
      | _ => none

/-- str2mode from filters.c: octal branch when the first character is an octal
digit (rejecting any decimal digit above `7` in the digit prefix and any value
above 0o7777), immediate rejection of a leading `8`/`9`, and otherwise the
symbolic-clause loop starting from mode 0. -/
def str2mode (um : Nat) (input : List Char) : Option Nat :=
  match input with
  | c :: _ =>
    if '0' ≤ c ∧ c ≤ '7' then
      let dpref := input.takeWhile Char.isDigit
      if dpref.any (fun d => '7' < d) then none
      else
        let m := dpref.foldl (fun acc d => acc * 8 + (d.toNat - 48)) 0
        if 0o7777 < m then none else some m
    else if c = '8' ∨ c = '9' then none
    else str2modeSym um (input.length + 1) input 0
  | [] => str2modeSym um 1 [] 0

/-- mode2filter from filters.c: an empty argument is a usage error; a leading
`/` selects `RBH_FOP_BITS_ANY_SET`, a leading `-` selects
`RBH_FOP_BITS_ALL_SET`, the default is `RBH_FOP_EQUAL`; the rest is parsed by
str2mode, whose failure is the `invalid mode` usage error. -/
def mode2filter (um : Nat) (modeArg : List Char) : Except Err Filter :=
  match modeArg with
  | [] => .error .usage
  | _ =>
    let sel : FOp × List Char :=
      match modeArg with
      | '/' :: r => (.bitsAnySet, r)
      | '-' :: r => (.bitsAllSet, r)
      | _ => (.equal, modeArg)
    match str2mode um sel.2 with
    | none => .error .usage
    | some m => .ok (Filter.comp ⟨sel.1, predicate2filter_field .perm, .u32 m⟩)

/-- The command-line token kinds of parser.h (`enum command_line_token`). -/
inductive CLT where
  | uri
  | land
  | lor
  | lnot
  | popen
  | pclose
  | pred
  | act
deriving DecidableEq

/-- One classified command-line argument.  A predicate keyword carries the
argument string that parse_predicate reads from the following argv slot
(`Predicate(kind, name)` in the spec's token model); `uri` stands for any
string the classifier maps to `CLT_URI`. -/
inductive Token where
  | uri
  | land
  | lor
  | lnot
  | popen
  | pclose
  | pred (p : Pred) (arg : List Char)
  | act
deriving DecidableEq

/-- parse_predicate from rbh-find.c: dispatches a predicate and its argument
to the matching compiler of filters.c.  `now` models the `time(NULL)` calls
inside the time compilers and `um` the process umask read by the permission
parser. -/
def parse_predicate (now : Int) (um : Nat) (p : Pred) (arg : List Char) :
    Except Err Filter :=
  match p with
  | .amin => xmin2filter now .amin arg
  | .mmin => xmin2filter now .mmin arg
  | .cmin => xmin2filter now .cmin arg
  | .atime => xtime2filter now .atime arg
  | .mtime => xtime2filter now .mtime arg
  | .ctime => xtime2filter now .ctime arg
  | .name => .ok (shell_regex2filter .name arg false)
  | .iname => .ok (shell_regex2filter .iname arg true)
  | .ftype => filetype2filter arg
  | .perm => mode2filter um arg

/-- The `previous_token` validity check guarding the binary operators in
parse_expression: an action, a predicate or a closing parenthesis must
immediately precede `-a`/`-and`/`-o`/`-or`. -/
def validBefore (prev : CLT) : Bool :=
  prev = CLT.act || prev = CLT.pred || prev = CLT.pclose

/-- parse_expression from rbh-find.c.  The state threaded through the loop is
exactly the C function's: the running `filter` (starting at NULL), the
`negate` flag, the function-static `token` variable as seen at loop entry
(`prev`), and the caller-supplied context `_filter` (`ctx`).  The result is
the returned filter, the unconsumed suffix of the stream (`*arg_idx`; a
closing parenthesis is left in place for the caller's loop increment to skip)
and the final value of the static `token` variable.  Side effects of action
tokens (running `find`) do not alter the parse state and are not modelled.
The explicit bound only decreases on every step and never runs out when it
exceeds twice the stream length. -/
def parse_expression (now : Int) (um : Nat) :
    Nat → List Token → Filter → Bool → CLT → Filter →
    Except Err (Filter × List Token × CLT)
  | 0, _, _, _, _, _ => .error .fuel
  | _ + 1, [], filter, _, prev, _ => .ok (filter, [], prev)
  | fuelN + 1, tok :: rest, filter, negate, prev, ctx =>
    match tok with
    | .uri => .error .usage
    | .land =>
      if validBefore prev then
        parse_expression now um fuelN rest filter negate .land ctx
      else
        .error .usage
    | .lor =>
      if validBefore prev then
        match parse_expression now um fuelN rest .null false .lor
            (filter_not (filter_and filter ctx)) with
        | .ok r => .ok (filter_or filter r.1, r.2.1, r.2.2)
        | .error e => .error e
      else
        .error .usage
    | .lnot =>
      parse_expression now um fuelN rest filter (!negate) .lnot ctx
    | .popen =>
      match parse_expression now um fuelN rest .null false .popen
          (filter_and filter ctx) with
      | .ok r =>
        match r.2.1 with
        | [] => .error .usage
        | _ :: rem =>
          if r.2.2 = CLT.pclose then
            parse_expression now um fuelN rem
              (filter_and filter (if negate then filter_not r.1 else r.1))
              false r.2.2 ctx
          else
            .error .usage
      | .error e => .error e
    | .pclose =>
      if prev = CLT.popen then .error .failure
      else .ok (filter, tok :: rest, .pclose)
    | .pred p arg =>
      match parse_predicate now um p arg with
      | .ok tmp =>
        parse_expression now um fuelN rest
          (filter_and filter (if negate then filter_not tmp else tmp))
          false .pred ctx
      | .error e => .error e
    | .act =>
      parse_expression now um fuelN rest filter negate .act ctx

/-- The expression-parsing part of main in rbh-find.c: parse_expression is
called on the arguments following the URIs with a NULL context and the
function-static token still at its `CLT_URI` initial value, then any
unconsumed argument (a stray closing parenthesis) is the
`you have too many ')'` usage error. -/
def rbh_find_parse (now : Int) (um : Nat) (args : List Token) : Except Err Filter :=
  match parse_expression now um (2 * args.length + 2) args .null false .uri .null with
  | .ok r => if r.2.1 = [] then .ok r.1 else .error .usage
  | .error e => .error e

/-- Modelled from the spec: the backend's evaluation of a filter against one
entry is outside this repository; the spec fixes the entry attributes the
compiled filters compare (statx timestamps, name, mode, file type). -/
structure Entry where
  atimeSec : Int
  mtimeSec : Int
  ctimeSec : Int
  entName : List Char
  entMode : Nat
  entFtype : Int

/-- Integer-valued attribute of an entry for a comparison field. -/
def fieldInt (f : FField) (e : Entry) : Int :=
  match f with
  | .atime => e.atimeSec
  | .mtime => e.mtimeSec
  | .ctime => e.ctimeSec
  | .ftype => e.entFtype
  | .name => 0
  | .mode => 0

/-- An atom of the PCRE subset shell2pcre emits: a literal character or the
dot wildcard (which, per PCRE defaults, does not match a newline). -/
inductive RAtom where
  | lit (c : Char)
  | dot
deriving DecidableEq

/-- Whether a regex atom matches one character. -/
def matchAtom : RAtom → Char → Bool
  | .lit c, x => x = c
  | .dot, x => x ≠ '\n'

/-- An element of a parsed regex body: a single atom or a starred atom. -/
inductive RElem where
  | one (a : RAtom)
  | star (a : RAtom)
deriving DecidableEq

/-- Modelled from the spec: parser for the PCRE subset appearing between the
anchors of shell2pcre's output — backslash-escaped literals, `.`, plain
literals, and a postfix `*`.  Any other metacharacter is unsupported
(`none`). -/
def parsePcre : List Char → Option (List RElem)
  | [] => some []
  | ['\\'] => none
  | '\\' :: c :: '*' :: rest => (parsePcre rest).map (fun es => RElem.star (.lit c) :: es)
  | '\\' :: c :: rest => (parsePcre rest).map (fun es => RElem.one (.lit c) :: es)
  | '.' :: '*' :: rest => (parsePcre rest).map (fun es => RElem.star .dot :: es)
  | '.' :: rest => (parsePcre rest).map (fun es => RElem.one .dot :: es)
  | c :: '*' :: rest =>
    if c = '(' ∨ c = ')' ∨ c = '|' ∨ c = '+' ∨ c = '*' ∨ c = '?' ∨ c = '$' ∨ c = '^' then
      none
    else
      (parsePcre rest).map (fun es => RElem.star (.lit c) :: es)
  | c :: rest =>
    if c = '(' ∨ c = ')' ∨ c = '|' ∨ c = '+' ∨ c = '*' ∨ c = '?' ∨ c = '$' ∨ c = '^' then
      none
    else
      (parsePcre rest).map (fun es => RElem.one (.lit c) :: es)

/-- The subjects reachable from `s` by letting a starred atom consume zero or
more matching characters from the front: `s` itself and, as long as the atom
matches, each successive suffix. -/
def starSuffixes (a : RAtom) : List Char → List (List Char)
  | [] => [[]]
  | x :: xs => (x :: xs) :: (if matchAtom a x then starSuffixes a xs else [])

/-- Modelled from the spec: the standard matching relation of the regex
subset, requiring the whole subject to be consumed (both ends are anchored
in shell2pcre's output).  A starred atom consumes any number of matching
characters before the remaining elements match the rest. -/
def reMatch : List RElem → List Char → Bool
  | [], s => s.isEmpty
  | .one a :: es, s =>
    match s with
    | [] => false
    | x :: xs => matchAtom a x && reMatch es xs
  | .star a :: es, s => (starSuffixes a s).any fun t => reMatch es t

/-- Modelled from the spec: acceptance of a subject by a full shell2pcre
output: the pattern must start with the `^` anchor and end with the
`(?!\n)$` suffix, whose combination makes a match reach the true end of the
subject; the body in between is matched exactly. -/
def pcreAccepts (pat : List Char) (s : List Char) : Bool :=
  match pat with
  | '^' :: body =>
    if body.length < 6 then false
    else if body.drop (body.length - 6) = pcreSuffix then
      match parsePcre (body.take (body.length - 6)) with
      | some es => reMatch es s
      | none => false
    else false
  | _ => false

/-- Modelled from the spec: evaluation of one comparison leaf against an
entry, following the spec's operator table (`Equal`, `StrictlyGreater`,
`StrictlyLower`, `BitsAllSet`, `BitsAnySet`, `RegexMatch`). -/
def evalComp (c : Comp) (e : Entry) : Bool :=
  match c.op, c.value with
  | .equal, .int v => fieldInt c.field e = v
  | .strictlyGreater, .int v => v < fieldInt c.field e
  | .strictlyLower, .int v => fieldInt c.field e < v
  | .equal, .u32 v => e.entMode = v
  | .bitsAllSet, .u32 v => e.entMode &&& v = v
  | .bitsAnySet, .u32 v => e.entMode &&& v ≠ 0
  | .regex, .regex pat ci =>
    if ci then pcreAccepts (pat.map Char.toLower) (e.entName.map Char.toLower)
    else pcreAccepts pat e.entName
  | _, _ => false

/-- Modelled from the spec: evaluation of a filter tree against one entry.
AND/OR/NOT have their boolean meaning and a NULL filter matches every entry
(the backend applies no restriction for it). -/
def evalFilter : Filter → Entry → Bool
  | .null, _ => true
  | .comp c, e => evalComp c e
  | .and2 l r, e => evalFilter l e && evalFilter r e
  | .or2 l r, e => evalFilter l e || evalFilter r e
  | .not1 f, e => !evalFilter f e

/-- str2seconds succeeds on an all-digit argument whose value does not
overflow the unit conversion, returning the value scaled to seconds. -/
lemma str2seconds_digits (unit : TimeUnit) (s : List Char)
    (hd : ∀ c ∈ s, c.isDigit)
    (hov : digitsVal s ≤ ULONG_MAX / TIME_UNIT2SECONDS unit) :
    str2seconds unit s = some (digitsVal s * TIME_UNIT2SECONDS unit) := by
  have htake : s.takeWhile Char.isDigit = s := List.takeWhile_eq_self_iff.mpr hd
  have hdrop : s.dropWhile Char.isDigit = [] := List.dropWhile_eq_nil_iff.mpr hd
  have hle : digitsVal s ≤ ULONG_MAX :=
    le_trans hov (Nat.div_le_self _ _)
  simp [str2seconds, strtoul10, htake, hdrop, Nat.not_lt.mpr hle, Nat.not_lt.mpr hov]

/-- An all-digit string starts with neither a `-` nor a `+` sign. -/
lemma digits_head_ne_sign (s : List Char) (hd : ∀ c ∈ s, c.isDigit) (c : Char)
    (hc : ¬c.isDigit) : s.head? ≠ some c := by
  cases s with
  | nil => simp
  | cons x xs =>
    intro h
    simp only [List.head?_cons, Option.some.injEq] at h
    exact hc (h ▸ hd x (List.mem_cons_self x xs))

/-- xtime2filter on an unsigned all-digit day count compiles to the strict
range `(now - N*86400 - 86400, now - N*86400)` built by
filter_uint64_range_new. -/
lemma xtime2filter_digits (now : Int) (p : Pred) (s : List Char)
    (hd : ∀ c ∈ s, c.isDigit)
    (hov : digitsVal s ≤ ULONG_MAX / 86400) :
    xtime2filter now p s =
      .ok (filter_uint64_range_new (predicate2filter_field p)
        (now - (digitsVal s * 86400 : Nat) - 86400)
        (now - (digitsVal s * 86400 : Nat))) := by
  have h1 : s.head? ≠ some '-' := digits_head_ne_sign s hd '-' (by decide)
  have h2 : s.head? ≠ some '+' := digits_head_ne_sign s hd '+' (by decide)
  have h3 : str2seconds .day s = some (digitsVal s * 86400) :=
    str2seconds_digits .day s hd hov
  simp [xtime2filter, timedelta2filter, h1, h2, h3, TIME_UNIT2SECONDS]

/-- C2: an unsigned time-predicate argument denoting N compiles to an AND of
StrictlyGreater than `now - N - unit` and StrictlyLower than `now - N`
(in seconds, with a day-granularity unit), the open range whose members are
exactly the entries whose timestamp age is strictly between N and N+1 days. -/
theorem c2_unsigned_time_range (now : Int) (N : Nat) (s : List Char) (p : Pred)
    (hd : ∀ c ∈ s, c.isDigit) (hval : digitsVal s = N)
    (hov : N ≤ ULONG_MAX / 86400) :
    xtime2filter now p s =
      .ok (filter_and
        (Filter.comp ⟨.strictlyGreater, predicate2filter_field p,
          .int (now - (N * 86400 : Nat) - 86400)⟩)
        (Filter.comp ⟨.strictlyLower, predicate2filter_field p,
          .int (now - (N * 86400 : Nat))⟩))
    ∧ ∀ e : Entry,
        evalFilter (filter_and
          (Filter.comp ⟨.strictlyGreater, predicate2filter_field p,
            .int (now - (N * 86400 : Nat) - 86400)⟩)
          (Filter.comp ⟨.strictlyLower, predicate2filter_field p,
            .int (now - (N * 86400 : Nat))⟩)) e = true ↔
          (N : Int) * 86400 < now - fieldInt (predicate2filter_field p) e ∧
            now - fieldInt (predicate2filter_field p) e < ((N : Int) + 1) * 86400 := by
  subst hval
  constructor
  · exact xtime2filter_digits now p s hd hov
  · intro e
    simp only [filter_and, evalFilter, evalComp, Bool.and_eq_true, decide_eq_true_eq]
    push_cast
    omega

/-- Witness for C2 at the concrete call `-mtime 2` with `now = 1000000`:
the hypotheses hold for the argument string `"2"` and the compiled filter is
the strict range `(481200 + 172800, 1000000 - 172800)`; an entry whose mtime
age is 200000 seconds (between 2 and 3 days) is matched. -/
theorem c2_unsigned_time_range_witness :
    ((∀ c ∈ ("2".toList), c.isDigit) ∧ digitsVal ("2".toList) = 2 ∧
      2 ≤ ULONG_MAX / 86400) ∧
    xtime2filter 1000000 .mtime ("2".toList) =
      .ok (filter_and
        (Filter.comp ⟨.strictlyGreater, FField.mtime, .int (1000000 - (2 * 86400 : Nat) - 86400)⟩)
        (Filter.comp ⟨.strictlyLower, FField.mtime, .int (1000000 - (2 * 86400 : Nat))⟩)) ∧
    ((2 : Int) * 86400 < 1000000 - fieldInt FField.mtime ⟨0, 800000, 0, [], 0, 0⟩ ∧
      1000000 - fieldInt FField.mtime ⟨0, 800000, 0, [], 0, 0⟩ < ((2 : Int) + 1) * 86400) :=
  ⟨⟨by decide, by decide, by decide⟩,
    (c2_unsigned_time_range 1000000 2 ("2".toList) .mtime (by decide) (by decide)
      (by decide)).1,
    ((c2_unsigned_time_range 1000000 2 ("2".toList) .mtime (by decide) (by decide)
      (by decide)).2 ⟨0, 800000, 0, [], 0, 0⟩).mp (by decide)⟩

/-- C3 is falsified by the code: with `now = 864000`, `-mtime 2` compiles to
the range `(604800, 691200)` and the entry of age exactly 2.0 days
(mtime 691200) is NOT selected, contrary to the claim that the filter selects
the 2.0-day entry. -/
theorem c3_counterexample :
    xtime2filter 864000 .mtime ("2".toList) =
      .ok (filter_and
        (Filter.comp ⟨.strictlyGreater, FField.mtime, .int 604800⟩)
        (Filter.comp ⟨.strictlyLower, FField.mtime, .int 691200⟩))
    ∧ evalFilter (filter_and
        (Filter.comp ⟨.strictlyGreater, FField.mtime, .int 604800⟩)
        (Filter.comp ⟨.strictlyLower, FField.mtime, .int 691200⟩))
        ⟨0, 864000 - 172800, 0, [], 0, 0⟩ = false := by
  constructor
  · decide
  · decide

/-- C3 (amended): `-mtime 2` compiles to a filter matching exactly the entries
modified strictly more than 2 and strictly less than 3 days ago; of entries
aged 0.5, 2.0 and 5.0 days none is selected (the 2.0-day entry sits on the
excluded boundary), while an entry aged 2.5 days is selected. -/
theorem c3_amended_strict_range (now : Int) :
    xtime2filter now .mtime ("2".toList) =
      .ok (filter_uint64_range_new FField.mtime (now - (172800 : Nat) - 86400)
        (now - (172800 : Nat)))
    ∧ evalFilter (filter_uint64_range_new FField.mtime (now - (172800 : Nat) - 86400)
        (now - (172800 : Nat))) ⟨0, now - 43200, 0, [], 0, 0⟩ = false
    ∧ evalFilter (filter_uint64_range_new FField.mtime (now - (172800 : Nat) - 86400)
        (now - (172800 : Nat))) ⟨0, now - 172800, 0, [], 0, 0⟩ = false
    ∧ evalFilter (filter_uint64_range_new FField.mtime (now - (172800 : Nat) - 86400)
        (now - (172800 : Nat))) ⟨0, now - 432000, 0, [], 0, 0⟩ = false
    ∧ evalFilter (filter_uint64_range_new FField.mtime (now - (172800 : Nat) - 86400)
        (now - (172800 : Nat))) ⟨0, now - 216000, 0, [], 0, 0⟩ = true := by
  refine ⟨?_, ?_, ?_, ?_, ?_⟩
  · have h := xtime2filter_digits now .mtime ("2".toList) (by decide) (by decide)
    simpa using h
  all_goals
    simp only [filter_uint64_range_new, filter_and, evalFilter, evalComp, fieldInt,
      Bool.and_eq_true, Bool.and_eq_false_iff, decide_eq_true_eq, decide_eq_false_iff_not]
    omega

/-- C4: octal permission parsing.  `-perm 644` compiles to an Equal comparison
on mode 0o644; the arguments `8` and `789` are usage errors; `07777` is
accepted (as an Equal comparison on 0o7777); `10000` (0o10000 > 0o7777) is a
usage error. -/
theorem c4_octal_perm_parsing :
    mode2filter 0o22 ("644".toList) =
      .ok (Filter.comp ⟨.equal, FField.mode, .u32 0o644⟩)
    ∧ mode2filter 0o22 ("8".toList) = .error .usage
    ∧ mode2filter 0o22 ("789".toList) = .error .usage
    ∧ mode2filter 0o22 ("07777".toList) =
      .ok (Filter.comp ⟨.equal, FField.mode, .u32 0o7777⟩)
    ∧ mode2filter 0o22 ("10000".toList) = .error .usage := by
  refine ⟨?_, ?_, ?_, ?_, ?_⟩ <;> decide

/-- C5: the special perm letters of the symbolic clause grammar, for every
starting mode, umask and who-set: `X` contributes the execute bits of the
addressed classes exactly when some execute bit (0o111) is already set in the
mode, and nothing otherwise; `s` contributes nothing — without an error — when
the who-set is exactly `o`; `t` contributes the sticky bit exactly when the
who-set is empty or `a` was given. -/
theorem c5_symbolic_special_letters :
    (∀ (user group other all : Bool) (um mode : Nat),
      symPermChar user group other all um mode 'X' =
        some (if mode &&& 0o111 ≠ 0 then
          (if user then 0o100 else 0) ||| (if group then 0o10 else 0) |||
            (if other then 0o1 else 0)
        else 0))
    ∧ (∀ (all : Bool) (um mode : Nat),
        symPermChar false false true all um mode 's' = some 0)
    ∧ (∀ (user group other all : Bool) (um mode : Nat),
        symPermChar user group other all um mode 't' =
          some (if !(user || group || other) || all then 0o1000 else 0)) := by
  refine ⟨?_, ?_, ?_⟩
  · intro user group other all um mode
    by_cases h : mode &&& 0o111 ≠ 0 <;> simp [symPermChar, h]
  · intro all um mode
    simp [symPermChar]
  · intro user group other all um mode
    simp [symPermChar]

/-- C7: two consecutive `-not` tokens cancel: parsing a stream that starts
with `-not -not` followed by a predicate produces exactly the same outcome as
parsing the stream without the two `-not` tokens, whatever the carried state —
the negate flag is toggled twice and no Not node is wrapped around the
predicate's leaf. -/
theorem c7_double_negation (now : Int) (um : Nat) (fuelN : Nat) (p : Pred)
    (arg : List Char) (rest : List Token) (filter : Filter) (negate : Bool)
    (prev : CLT) (ctx : Filter) :
    parse_expression now um (fuelN + 2)
        (Token.lnot :: Token.lnot :: Token.pred p arg :: rest) filter negate prev ctx
      = parse_expression now um fuelN (Token.pred p arg :: rest) filter negate prev ctx := by
  have h1 : parse_expression now um (fuelN + 2)
      (Token.lnot :: Token.lnot :: Token.pred p arg :: rest) filter negate prev ctx
      = parse_expression now um fuelN (Token.pred p arg :: rest) filter (!!negate)
          CLT.lnot ctx := rfl
  rw [h1, Bool.not_not]
  cases fuelN with
  | zero => rfl
  | succ n =>
    cases hpp : parse_predicate now um p arg <;>
      simp [parse_expression, hpp]

/-- C9: a `-not` that is the last token of the stream, or the last token
before the closing parenthesis of the current level, raises no error and has
no effect: the accumulated filter is returned un-negated (the pending negate
flag is discarded). -/
theorem c9_trailing_not (now : Int) (um : Nat) (fuelN : Nat) (filter : Filter)
    (negate : Bool) (prev : CLT) (ctx : Filter) :
    parse_expression now um (fuelN + 2) [Token.lnot] filter negate prev ctx
        = .ok (filter, [], CLT.lnot)
    ∧ parse_expression now um (fuelN + 2) [Token.lnot, Token.pclose] filter negate prev ctx
        = .ok (filter, [Token.pclose], CLT.pclose) :=
  ⟨rfl, rfl⟩

/-- C1: on an `-or` token after a valid preceding term, parse_expression
recursively parses the right-hand side with the fresh state (NULL running
filter, cleared negate flag) seeded with the implicit context
`Not(And(runningLeft, callerSuppliedFilter))`, and immediately returns
`Or(runningLeft, rightResult)` together with whatever remained of the stream
after the recursive parse — OR terminates the current parse level.  The
constructed Or node matches an entry iff the left or the right filter does,
so its match set is the union of the two match sets. -/
theorem c1_or_rewrite (now : Int) (um : Nat) (fuelN : Nat) (toks : List Token)
    (filter : Filter) (negate : Bool) (prev : CLT) (ctx : Filter)
    (h : validBefore prev = true) :
    parse_expression now um (fuelN + 1) (Token.lor :: toks) filter negate prev ctx
        = Except.map (fun r => (filter_or filter r.1, r.2.1, r.2.2))
            (parse_expression now um fuelN toks .null false .lor
              (filter_not (filter_and filter ctx)))
    ∧ ∀ (rf : Filter) (e : Entry),
        evalFilter (filter_or filter rf) e
          = (evalFilter filter e || evalFilter rf e) := by
  constructor
  · cases hres : parse_expression now um fuelN toks .null false .lor
        (filter_not (filter_and filter ctx)) <;>
      simp [parse_expression, h, hres, Except.map]
  · intro rf e
    rfl

/-- Witness for C1: with previous token `CLT_PREDICATE`, a left filter
`-type f` and right-hand side `-type d`, the OR step returns the Or of the
left filter with the parse of the right-hand side seeded with the negated
left context, and the Or evaluates as the boolean union. -/
theorem c1_or_rewrite_witness :
    validBefore CLT.pred = true ∧
    parse_expression 0 18 4
        (Token.lor :: [Token.pred .ftype ("d".toList)])
        (Filter.comp ⟨.equal, FField.ftype, .int 0o100000⟩) false CLT.pred .null
      = Except.map (fun r => (filter_or (Filter.comp ⟨.equal, FField.ftype, .int 0o100000⟩) r.1,
            r.2.1, r.2.2))
          (parse_expression 0 18 3 [Token.pred .ftype ("d".toList)] .null false .lor
            (filter_not (filter_and (Filter.comp ⟨.equal, FField.ftype, .int 0o100000⟩) .null))) :=
  ⟨by decide,
    (c1_or_rewrite 0 18 3 [Token.pred .ftype ("d".toList)]
      (Filter.comp ⟨.equal, FField.ftype, .int 0o100000⟩) false CLT.pred .null
      (by decide)).1⟩

/-- C8 is falsified by the code: the empty parenthesized group `()` is
rejected through `error(EXIT_FAILURE, ...)`, so the process exits with the
general-failure status 1, not the usage-specific status 64 the claim asserts
for every usage error. -/
theorem c8_counterexample :
    rbh_find_parse 0 18 [Token.popen, Token.pclose] = .error .failure
    ∧ Err.exitCode .failure = 1
    ∧ Err.exitCode .usage = 64
    ∧ Err.exitCode .failure ≠ Err.exitCode .usage := by
  refine ⟨?_, rfl, rfl, by decide⟩
  decide

/-- C8 (amended): a missing closing parenthesis and a lone closing
parenthesis are usage errors (status EX_USAGE = 64), at top level and nested;
the empty group `()`, at top level and nested, is also fatal but exits with
the general-failure status EXIT_FAILURE = 1, not the usage-specific one. -/
theorem c8_amended_paren_errors :
    rbh_find_parse 0 18 [Token.popen, Token.pred .name ("a".toList)] = .error .usage
    ∧ rbh_find_parse 0 18
        [Token.popen, Token.popen, Token.pred .name ("a".toList), Token.pclose]
        = .error .usage
    ∧ rbh_find_parse 0 18 [Token.pclose] = .error .usage
    ∧ rbh_find_parse 0 18
        [Token.popen, Token.pred .name ("a".toList), Token.pclose, Token.pclose]
        = .error .usage
    ∧ rbh_find_parse 0 18 [Token.popen, Token.pclose] = .error .failure
    ∧ rbh_find_parse 0 18 [Token.popen, Token.popen, Token.pclose, Token.pclose]
        = .error .failure
    ∧ Err.exitCode .usage = 64 ∧ Err.exitCode .failure = 1 := by
  refine ⟨?_, ?_, ?_, ?_, ?_, ?_, rfl, rfl⟩ <;> decide

/-- A sequence of literal atoms matches exactly the literal string itself. -/
lemma reMatch_lits (cs : List Char) :
    ∀ s, reMatch (cs.map fun c => RElem.one (RAtom.lit c)) s = decide (s = cs) := by
  induction cs with
  | nil =>
    intro s
    cases s <;> simp [reMatch]
  | cons c cs ih =>
    intro s
    cases s with
    | nil => simp [reMatch]
    | cons x xs =>
      simp [reMatch, matchAtom, ih xs, List.cons.injEq]

/-- On a newline-free subject the dot wildcard can consume any prefix, so
the reachable subjects of a starred dot are exactly the suffixes. -/
lemma mem_starSuffixes_dot :
    ∀ (s : List Char), '\n' ∉ s →
      ∀ t, (t ∈ starSuffixes RAtom.dot s ↔ t <:+ s)
  | [], _, t => by simp [starSuffixes]
  | x :: xs, hnl, t => by
    have hx : x ≠ '\n' := fun h => hnl (h ▸ List.mem_cons_self x xs)
    have hxs : '\n' ∉ xs := fun h => hnl (List.mem_cons_of_mem x h)
    have hax : matchAtom RAtom.dot x = true := by simp [matchAtom, hx]
    have ih := mem_starSuffixes_dot xs hxs t
    simp [starSuffixes, hax, ih, List.suffix_cons_iff]

/-- A starred dot followed by `es` matches a newline-free subject exactly when
`es` matches one of its suffixes. -/
lemma reMatch_star_dot (es : List RElem) (s : List Char) (hnl : '\n' ∉ s) :
    reMatch (RElem.star RAtom.dot :: es) s = true ↔
      ∃ t, t <:+ s ∧ reMatch es t = true := by
  simp only [reMatch, List.any_eq_true]
  constructor
  · rintro ⟨t, ht, hm⟩
    exact ⟨t, (mem_starSuffixes_dot s hnl t).mp ht, hm⟩
  · rintro ⟨t, ht, hm⟩
    exact ⟨t, (mem_starSuffixes_dot s hnl t).mpr ht, hm⟩

/-- C6: the glob translator anchors every output with `^` and the trailing
`(?!\n)$` lookahead; `*.txt` translates to a regex accepting exactly the
newline-free strings ending in the literal `.txt`; `a?c` translates to a
regex accepting `abc` but neither `ac` nor `abbc`; `(literal)` has its
parentheses escaped, so the result accepts exactly the literal string
`(literal)` rather than treating them as a group. -/
theorem c6_glob_translation :
    (∀ g, ∃ mid, shell2pcre g = '^' :: (mid ++ pcreSuffix))
    ∧ (∀ s, '\n' ∉ s →
        (pcreAccepts (shell2pcre ("*.txt".toList)) s = true ↔ (".txt".toList) <:+ s))
    ∧ (pcreAccepts (shell2pcre ("a?c".toList)) ("abc".toList) = true
       ∧ pcreAccepts (shell2pcre ("a?c".toList)) ("ac".toList) = false
       ∧ pcreAccepts (shell2pcre ("a?c".toList)) ("abbc".toList) = false)
    ∧ (shell2pcre ("(literal)".toList) = ("^\\(literal\\)(?!\n)$".toList)
       ∧ ∀ s, pcreAccepts (shell2pcre ("(literal)".toList)) s = true ↔
           s = "(literal)".toList) := by
  refine ⟨fun g => ⟨shell2pcreCore g false [], rfl⟩, ?_, ⟨by decide, by decide, by decide⟩,
    by decide, ?_⟩
  · intro s hnl
    have hred : pcreAccepts (shell2pcre ("*.txt".toList)) s
        = reMatch (RElem.star RAtom.dot ::
            ((".txt".toList).map fun c => RElem.one (RAtom.lit c))) s := rfl
    rw [hred, reMatch_star_dot _ s hnl]

    constructor
    · rintro ⟨t, hsuf, hm⟩
      rw [reMatch_lits] at hm
      simp only [decide_eq_true_eq] at hm
      exact hm ▸ hsuf
    · intro hsuf
      refine ⟨".txt".toList, hsuf, ?_⟩
      rw [reMatch_lits]
      simp
  · intro s
    have hred : pcreAccepts (shell2pcre ("(literal)".toList)) s
        = reMatch (("(literal)".toList).map fun c => RElem.one (RAtom.lit c)) s := rfl
    rw [hred, reMatch_lits]
    simp

/-- Witness for C6: the translated `*.txt` pattern accepts the newline-free
string `foo.txt` (which ends in `.txt`). -/
theorem c6_glob_translation_witness :
    '\n' ∉ ("foo.txt".toList)
    ∧ pcreAccepts (shell2pcre ("*.txt".toList)) ("foo.txt".toList) = true :=
  ⟨by decide,
    ((c6_glob_translation.2.1 ("foo.txt".toList) (by decide)).mpr (by decide))⟩

end RbhFind
